import Mathlib

/-!
Verification of the gold-shop inventory application (`main.py`).

The embedding models:
* the Gregorian→Jalali calendar conversion (`gregorian_to_jalali`),
* the `products` and `bases` SQLite tables as Lean lists of records,
  together with the database helper operations (`add_product`,
  `update_product`, `delete_product`, `mark_as_sold`, `set_base_image`,
  `get_base_image`, `delete_old_sold_products`, CSV export),
* the application-level operations that mutate the database
  (batch/single save, the sell flow, restore of sold products), and
* the path handling of the backup-ZIP restore (`_on_restore_selected`).

SQLite TEXT values are modelled as `List Char` (UTF-8 codepoint order of
`List Char` lexicographic comparison coincides with SQLite's BINARY
collation byte order).  REAL columns are modelled as `Rat`; no claim
depends on floating-point rounding.
-/

namespace GoldShop

/-! ### String primitives

Executable replacements for the Python/SQLite string operations used by
the source: BINARY-collation comparison, `str.strip`, `str.startswith`,
`str.split('/')` and `int(...)` parsing, all over `List Char` so that
they evaluate under `decide`. -/

abbrev Str := List Char

def chLt (a b : Char) : Bool := a.val < b.val

/-- SQLite BINARY collation `<` on TEXT values (byte order of UTF-8 =
codepoint lexicographic order). -/
def strLt : Str → Str → Bool
  | [], [] => false
  | [], _ :: _ => true
  | _ :: _, [] => false
  | a :: as, b :: bs => if a = b then strLt as bs else chLt a b

/-- Python `a.startswith(b)` on strings. -/
def isPre : Str → Str → Bool
  | [], _ => true
  | _ :: _, [] => false
  | a :: as, b :: bs => a = b && isPre as bs

def wsChar (c : Char) : Bool :=
  c = ' ' || c = '\t' || c = '\n' || c = '\r' || c = '\x0b' || c = '\x0c'

/-- Python `str.strip()` (whitespace on both ends). -/
def pyStrip (s : Str) : Str :=
  ((s.dropWhile wsChar).reverse.dropWhile wsChar).reverse

/-- Python `int(s)` for a decimal string: optional surrounding
whitespace, optional sign, at least one digit; `none` when the parse
fails (raises `ValueError` in the source). -/
def pyInt? (s : Str) : Option Int :=
  let t := pyStrip s
  let core : Str → Option Nat := fun ds =>
    if ds = [] then none
    else if ds.all (fun c => c.isDigit) then
      some (ds.foldl (fun acc c => acc * 10 + (c.toNat - 48)) 0)
    else none
  match t with
  | '-' :: rest => (core rest).map (fun n => -(n : Int))
  | '+' :: rest => (core rest).map (fun n => (n : Int))
  | _ => (core t).map (fun n => (n : Int))

/-- Split on a separator character (`member.split('/')` view of a POSIX
path; `os.path` functions treat the name as `'/'`-separated segments). -/
def splitOnChar (c : Char) (s : Str) : List Str :=
  match s with
  | [] => [[]]
  | a :: as =>
    let r := splitOnChar c as
    if a = c then [] :: r
    else
      match r with
      | [] => [[a]]
      | h :: t => (a :: h) :: t

def digitChar (n : Nat) : Char :=
  Char.ofNat (48 + n % 10)

def natReprAux : Nat → Nat → Str
  | 0, _ => []
  | fuel + 1, n =>
    if n < 10 then [digitChar n]
    else natReprAux fuel (n / 10) ++ [digitChar (n % 10)]

/-- Decimal rendering of a natural number (Python `str(n)` / f-string
interpolation of a non-negative int). -/
def natRepr (n : Nat) : Str := natReprAux (n + 1) n

/-! ### Gregorian → Jalali conversion (`gregorian_to_jalali`)

Python `//` and `%` on a positive divisor coincide with `Int./` and
`Int.%` (Euclidean = floor division for positive divisors), so the
embedding uses Lean's `Int` division directly; all divisors in the
formula are positive. -/

def g_d_m : List Int := [0, 31, 59, 90, 120, 151, 181, 212, 243, 273, 304, 334]

/-- The tail of `gregorian_to_jalali` after the day count `days` has
been computed: the sequence of in-place updates of `days`/`jy` in the
source is written as a chain of lets. -/
def jalaliFromDays (days0 : Int) : Int × Int × Int :=
  let jy0 := -1595 + 33 * (days0 / 12053)
  let days1 := days0 % 12053
  let jy1 := jy0 + 4 * (days1 / 1461)
  let days2 := days1 % 1461
  let jy2 := if days2 > 365 then jy1 + (days2 - 1) / 365 else jy1
  let days3 := if days2 > 365 then (days2 - 1) % 365 else days2
  if days3 < 186 then (jy2, 1 + days3 / 31, 1 + days3 % 31)
  else (jy2, 7 + (days3 - 186) / 30, 1 + (days3 - 186) % 30)

/-- The function `gregorian_to_jalali(gy, gm, gd)` from `main.py`. -/
def gregorian_to_jalali (gy gm gd : Int) : Int × Int × Int :=
  let gy2 := if gm > 2 then gy + 1 else gy
  jalaliFromDays (355666 + 365 * gy + (gy2 + 3) / 4 - (gy2 + 99) / 100
    + (gy2 + 399) / 400 + gd + g_d_m.getD (gm - 1).toNat 0)

/-- The Persian month names of `get_jalali_date_persian_string`. -/
def persian_months : List Str :=
  ["فروردین".data, "اردیبهشت".data, "خرداد".data, "تیر".data, "مرداد".data,
   "شهریور".data, "مهر".data, "آبان".data, "آذر".data, "دی".data,
   "بهمن".data, "اسفند".data]

theorem jalaliFromDays_bounds (d : Int) :
    1 ≤ (jalaliFromDays d).2.1 ∧ (jalaliFromDays d).2.1 ≤ 12 ∧
    1 ≤ (jalaliFromDays d).2.2 ∧ (jalaliFromDays d).2.2 ≤ 31 := by
  unfold jalaliFromDays
  dsimp only
  split_ifs with h1 h2 h3 <;> dsimp only <;> omega

/-- C1: for every Gregorian date, `gregorian_to_jalali` is a
deterministic pure function (equal inputs give equal outputs), and on
the reference date 2024-03-20 it returns (1403, 1, 1). -/
theorem C1_gregorian_to_jalali_deterministic_and_reference :
    (∀ gy gm gd gy' gm' gd' : Int, gy = gy' → gm = gm' → gd = gd' →
      gregorian_to_jalali gy gm gd = gregorian_to_jalali gy' gm' gd') ∧
    gregorian_to_jalali 2024 3 20 = (1403, 1, 1) := by
  refine ⟨?_, by decide⟩
  rintro gy gm gd gy' gm' gd' rfl rfl rfl
  rfl

theorem C1_gregorian_to_jalali_witness :
    gregorian_to_jalali 2024 3 20 = gregorian_to_jalali 2024 3 20 ∧
    gregorian_to_jalali 2024 3 20 = (1403, 1, 1) :=
  ⟨C1_gregorian_to_jalali_deterministic_and_reference.1 2024 3 20 2024 3 20 rfl rfl rfl,
   C1_gregorian_to_jalali_deterministic_and_reference.2⟩

/-- C9: for every Gregorian input with `1 ≤ gm ≤ 12`, the Jalali month
`jm` lies in `[1, 12]` and the day `jd` in `[1, 31]`, so the Persian
month-name lookup `months[jm - 1]` is always in bounds. -/
theorem C9_jalali_output_bounds (gy gm gd : Int) (h1 : 1 ≤ gm) (h2 : gm ≤ 12) :
    1 ≤ (gregorian_to_jalali gy gm gd).2.1 ∧ (gregorian_to_jalali gy gm gd).2.1 ≤ 12 ∧
    1 ≤ (gregorian_to_jalali gy gm gd).2.2 ∧ (gregorian_to_jalali gy gm gd).2.2 ≤ 31 ∧
    ((gregorian_to_jalali gy gm gd).2.1 - 1).toNat < persian_months.length := by
  unfold gregorian_to_jalali
  dsimp only
  refine ⟨(jalaliFromDays_bounds _).1, (jalaliFromDays_bounds _).2.1,
    (jalaliFromDays_bounds _).2.2.1, (jalaliFromDays_bounds _).2.2.2, ?_⟩
  have hb := jalaliFromDays_bounds (355666 + 365 * gy
    + ((if gm > 2 then gy + 1 else gy) + 3) / 4 - ((if gm > 2 then gy + 1 else gy) + 99) / 100
    + ((if gm > 2 then gy + 1 else gy) + 399) / 400 + gd + g_d_m.getD (gm - 1).toNat 0)
  have hlen : persian_months.length = 12 := by decide
  omega

theorem C9_jalali_output_bounds_witness :
    1 ≤ (gregorian_to_jalali 2024 3 20).2.1 ∧ (gregorian_to_jalali 2024 3 20).2.1 ≤ 12 ∧
    1 ≤ (gregorian_to_jalali 2024 3 20).2.2 ∧ (gregorian_to_jalali 2024 3 20).2.2 ≤ 31 ∧
    ((gregorian_to_jalali 2024 3 20).2.1 - 1).toNat < persian_months.length :=
  C9_jalali_output_bounds 2024 3 20 (by decide) (by decide)

/-! ### Data model

The `products` table of `create_tables`.  `id` is the AUTOINCREMENT
primary key; nullable TEXT columns are `Option Str`.  `weight REAL` is
modelled as `Rat` and `quantity INTEGER` as `Int`. -/

structure ProductData where
  product_code : Option Str
  name : Str
  category : Str
  base_number : Str
  weight : Rat
  quantity : Int
  purity : Option Str
  image : Option Str
  thumb : Option Str
  notes : Option Str
  created_at : Option Str
  sold_invoice : Option Str
  sold_at : Option Str
deriving DecidableEq

structure Product extends ProductData where
  id : Int
deriving DecidableEq

/-- The database state: rows of `products` in rowid (insertion) order,
plus the next AUTOINCREMENT id. -/
structure DB where
  products : List Product
  nextId : Int
deriving DecidableEq

/-- Python truthiness of `a` on `Option Str`: `a if a else b`
(`None` and the empty string are falsy). -/
def truthyOr (a b : Option Str) : Option Str :=
  match a with
  | some s => if s = [] then b else some s
  | none => b

/-- A row matches `WHERE sold_invoice IS NOT NULL AND sold_invoice != ''`. -/
def soldNonEmpty (p : ProductData) : Bool :=
  match p.sold_invoice with
  | some s => s ≠ []
  | none => false

/-! ### DBHelper operations -/

/-- Helper `get_product_by_code`: `SELECT ... WHERE product_code=?` (`NULL`
never compares equal in SQL). -/
def get_product_by_code (db : DB) (code : Str) : Option Product :=
  db.products.find? (fun p => p.product_code = some code)

/-- Helper `add_product(p)`: `INSERT INTO products ...`.  The table declares
`product_code TEXT UNIQUE`, so SQLite rejects the insert (raising
`IntegrityError`, leaving the table unchanged) when a non-NULL
`product_code` duplicates an existing row; multiple NULLs are allowed. -/
def add_product (db : DB) (p : ProductData) : DB :=
  if p.product_code ≠ none ∧ db.products.any (fun q => q.product_code = p.product_code)
  then db
  else { products := db.products ++ [⟨p, db.nextId⟩], nextId := db.nextId + 1 }

/-- Helper `update_product(pid, p)`: `UPDATE products SET <all columns> WHERE
id=?`.  The `UNIQUE` constraint on `product_code` makes the update fail
(leaving the table unchanged) when the new non-NULL code duplicates a
different row's code. -/
def update_product (db : DB) (pid : Int) (p : ProductData) : DB :=
  if p.product_code ≠ none ∧
      db.products.any (fun q => q.id ≠ pid ∧ q.product_code = p.product_code)
  then db
  else { db with products :=
    db.products.map (fun q => if q.id = pid then ⟨p, q.id⟩ else q) }

/-- Helper `delete_product(pid)`: `int(pid)` then `DELETE FROM products WHERE
id=?`; a parse failure returns with no database change.  (The image and
thumbnail file removals are filesystem effects outside the model.) -/
def delete_product (db : DB) (pid : Str) : DB :=
  match pyInt? pid with
  | none => db
  | some n => { db with products := db.products.filter (fun p => p.id ≠ n) }

/-- The body of `mark_as_sold` after `int(pid)` succeeded: fetch the
row, and if present set `sold_invoice`, `image`, `thumb`, `quantity=0`
and `sold_at` on it (`img_to_set = sold_image if sold_image else image`,
Python truthiness). -/
def mark_as_sold_core (db : DB) (pid : Int) (invoice : Str)
    (sold_image sold_thumb : Option Str) (ts : Str) : DB :=
  match db.products.find? (fun p => p.id = pid) with
  | none => db
  | some r =>
    let img := truthyOr sold_image r.image
    let thv := truthyOr sold_thumb r.thumb
    { db with products := db.products.map (fun q =>
        if q.id = pid then
          { q with sold_invoice := some invoice, image := img, thumb := thv,
                   quantity := 0, sold_at := some ts }
        else q) }

/-- Method `mark_as_sold(pid, invoice, sold_image, sold_thumb, ...)`: the
`int(pid)` coercion at the top returns without touching the database on
failure.  `ts` is the `get_jalali_datetime_string()` value.  (The JSON
metadata sidecar write is a filesystem effect outside the model.) -/
def mark_as_sold (db : DB) (pid : Str) (invoice : Str)
    (sold_image sold_thumb : Option Str) (ts : Str) : DB :=
  match pyInt? pid with
  | none => db
  | some n => mark_as_sold_core db n invoice sold_image sold_thumb ts

/-- The confirmed action of `restore_sold_product`: `UPDATE products SET
sold_invoice = NULL, quantity = 1, sold_at = NULL WHERE id = ?` (only
run when the product was found in `get_all_products`). -/
def restore_sold_product (db : DB) (pid : Int) : DB :=
  match db.products.find? (fun p => p.id = pid) with
  | none => db
  | some _ => { db with products := db.products.map (fun q =>
      if q.id = pid then
        { q with sold_invoice := none, quantity := 1, sold_at := none }
      else q) }

/-- The per-invoice restore: the same `UPDATE` applied to every product
whose `sold_invoice` equals the invoice. -/
def restore_invoice (db : DB) (invoice : Str) : DB :=
  { db with products := db.products.map (fun q =>
      if q.sold_invoice = some invoice then
        { q with sold_invoice := none, quantity := 1, sold_at := none }
      else q) }

/-- Function `delete_old_sold_products(db_path, months)`: rows matching
`sold_invoice IS NOT NULL AND sold_invoice != '' AND created_at < ?`
are deleted (`cutoff` is the Gregorian ISO string
`(now - months*30 days).isoformat()`; the comparison is SQLite BINARY
text comparison, and a NULL `created_at` never satisfies it). -/
def delete_old_sold_products (cutoff : Str) (db : DB) : DB :=
  { db with products := db.products.filter (fun p =>
      !(soldNonEmpty p.toProductData && (match p.created_at with
          | some s => strLt s cutoff
          | none => false))) }

/-! ### C2: the auto-deletion cutoff

`save_batch_products` stores `created_at` as the Jalali string
`get_jalali_datetime_string()` (`"1404/07/20 10:30"`-shaped), while
`delete_old_sold_products` compares it against a Gregorian ISO cutoff
(`"2025-07-14T10:00:00"`-shaped).  Under BINARY text comparison every
Jalali timestamp (starting with `'1'`) sorts before every ISO cutoff
(starting with `'2'`), so every sold product is deleted regardless of
how recently it was created. -/

/-- A sold product created *now* (Jalali timestamp for 2025-10-12),
i.e. well inside the three-month retention window. -/
def recentSoldProduct : Product :=
  { product_code := some "G12".data
    name := "ring".data
    category := "ring".data
    base_number := "1".data
    weight := (2 : Rat)
    quantity := 0
    purity := some "18".data
    image := none
    thumb := none
    notes := none
    created_at := some "1404/07/20 10:30".data
    sold_invoice := some "INV-100".data
    sold_at := some "1404/07/20 10:31".data
    id := 1 }

/-- C2 (failing input): a sold product created the same day the purge
runs — far inside the months*30-day window — is nevertheless deleted,
because its Jalali `created_at` string compares below the Gregorian ISO
cutoff string.  The claim says such a row is retained. -/
theorem C2_recent_sold_product_is_deleted :
    delete_old_sold_products "2025-07-14T10:00:00".data
        { products := [recentSoldProduct], nextId := 2 }
      = { products := [], nextId := 2 } := by decide

/-! ### C5: CSV export -/

/-- A CSV cell as handed to `csv.writer.writerow`: the Python value
before string rendering (`None` becomes the empty cell). -/
inductive Cell where
  | int (n : Int)
  | real (q : Rat)
  | text (s : Str)
  | null
deriving DecidableEq

def optCell : Option Str → Cell
  | some s => .text s
  | none => .null

/-- One data row of `export_all_csv`
(`[p['id'], p.get('product_code'), p['name'], p['category'],
p['base_number'], p['weight'], p['quantity'], p['purity'], p['notes'],
p.get('image'), p.get('sold_invoice'), p['created_at'],
p.get('sold_at')]`). -/
def productCsvRow (p : Product) : List Cell :=
  [.int p.id, optCell p.product_code, .text p.name, .text p.category,
   .text p.base_number, .real p.weight, .int p.quantity, optCell p.purity,
   optCell p.notes, optCell p.image, optCell p.sold_invoice,
   optCell p.created_at, optCell p.sold_at]

/-- Export `export_all_csv`: on an empty product list the function notifies and
returns without writing a file (`none`); otherwise the written file is
the header row followed by one row per product of
`get_all_products(include_sold=True)`. -/
def export_all_csv (prods : List Product) : Option (List (List Cell)) :=
  if prods.isEmpty then none
  else some (
    [.text "id".data, .text "product_code".data, .text "name".data,
     .text "category".data, .text "base_number".data, .text "weight".data,
     .text "quantity".data, .text "purity".data, .text "notes".data,
     .text "image".data, .text "sold_invoice".data, .text "created_at".data,
     .text "sold_at".data] :: prods.map productCsvRow)

/-- C5: the exported CSV's header row is exactly
id, product_code, name, category, base_number, weight, quantity, purity,
notes, image, sold_invoice, created_at, sold_at, and row `i+1` lists the
fields of product `i` in that same column order. -/
theorem C5_export_csv_layout :
    ∀ prods : List Product, prods ≠ [] →
      ∃ rows, export_all_csv prods = some rows ∧
        rows.head? = some
          [Cell.text "id".data, Cell.text "product_code".data, Cell.text "name".data,
           Cell.text "category".data, Cell.text "base_number".data, Cell.text "weight".data,
           Cell.text "quantity".data, Cell.text "purity".data, Cell.text "notes".data,
           Cell.text "image".data, Cell.text "sold_invoice".data, Cell.text "created_at".data,
           Cell.text "sold_at".data] ∧
        rows.length = prods.length + 1 ∧
        ∀ i (h : i < prods.length),
          rows[i + 1]? = some
            [Cell.int prods[i].id, optCell prods[i].product_code, Cell.text prods[i].name,
             Cell.text prods[i].category, Cell.text prods[i].base_number,
             Cell.real prods[i].weight, Cell.int prods[i].quantity, optCell prods[i].purity,
             optCell prods[i].notes, optCell prods[i].image, optCell prods[i].sold_invoice,
             optCell prods[i].created_at, optCell prods[i].sold_at] := by
  intro prods h
  refine ⟨[Cell.text "id".data, Cell.text "product_code".data, Cell.text "name".data,
      Cell.text "category".data, Cell.text "base_number".data, Cell.text "weight".data,
      Cell.text "quantity".data, Cell.text "purity".data, Cell.text "notes".data,
      Cell.text "image".data, Cell.text "sold_invoice".data, Cell.text "created_at".data,
      Cell.text "sold_at".data] :: prods.map productCsvRow, ?_, rfl, by simp, ?_⟩
  · unfold export_all_csv
    rw [if_neg (by simpa using h)]
  · intro i hi
    simp [List.getElem?_map, List.getElem?_eq_getElem hi, productCsvRow]

theorem C5_export_csv_layout_witness :
    ∃ rows, export_all_csv [recentSoldProduct] = some rows ∧
      rows.head? = some
        [Cell.text "id".data, Cell.text "product_code".data, Cell.text "name".data,
         Cell.text "category".data, Cell.text "base_number".data, Cell.text "weight".data,
         Cell.text "quantity".data, Cell.text "purity".data, Cell.text "notes".data,
         Cell.text "image".data, Cell.text "sold_invoice".data, Cell.text "created_at".data,
         Cell.text "sold_at".data] ∧
      rows.length = [recentSoldProduct].length + 1 ∧
      ∀ i (h : i < [recentSoldProduct].length),
        rows[i + 1]? = some
          [Cell.int [recentSoldProduct][i].id, optCell [recentSoldProduct][i].product_code,
           Cell.text [recentSoldProduct][i].name, Cell.text [recentSoldProduct][i].category,
           Cell.text [recentSoldProduct][i].base_number, Cell.real [recentSoldProduct][i].weight,
           Cell.int [recentSoldProduct][i].quantity, optCell [recentSoldProduct][i].purity,
           optCell [recentSoldProduct][i].notes, optCell [recentSoldProduct][i].image,
           optCell [recentSoldProduct][i].sold_invoice, optCell [recentSoldProduct][i].created_at,
           optCell [recentSoldProduct][i].sold_at] :=
  C5_export_csv_layout [recentSoldProduct] (by decide)

/-! ### C7: the `bases` table -/

/-- A row of the `bases` table (`UNIQUE(category, base_number)`). -/
structure BaseRow where
  category : Str
  base_number : Str
  image : Str
deriving DecidableEq

def pairMatch (category base_number : Str) (r : BaseRow) : Bool :=
  decide (r.category = category ∧ r.base_number = base_number)

/-- Method `set_base_image(category, base_number, image_path)`:
`UPDATE bases SET image=? WHERE category=? AND base_number=?`, and when
`rowcount == 0`, `INSERT INTO bases (category, base_number, image)`. -/
def set_base_image (bs : List BaseRow) (category base_number image_path : Str) :
    List BaseRow :=
  let matched := bs.countP (pairMatch category base_number)
  let updated := bs.map (fun r =>
    if pairMatch category base_number r then { r with image := image_path } else r)
  if matched = 0 then updated ++ [⟨category, base_number, image_path⟩] else updated

/-- Method `get_base_image(category, base_number)`:
`SELECT image FROM bases WHERE category=? AND base_number=?` with the
category argument passed as `category.strip()` (the asymmetry with
`set_base_image`, which does not strip, is in the source). -/
def get_base_image (bs : List BaseRow) (category base_number : Str) : Option Str :=
  (bs.find? (pairMatch (pyStrip category) base_number)).map (·.image)

/-- C7 counterexample: for the category `"x "` (trailing space) the
round-trip fails — `set_base_image` stores the unstripped category while
`get_base_image` looks up the stripped one, so the lookup misses the row
just written. -/
theorem C7_counterexample_whitespace_category :
    get_base_image (set_base_image [] "x ".data "1".data "img.png".data)
        "x ".data "1".data ≠ some "img.png".data := by decide

/-- C7 (amended): for every category `c` without surrounding whitespace
(`c.strip() == c`, which holds for all call sites, since they strip
before calling) and every base number and path, if the table satisfies
the `UNIQUE(category, base_number)` constraint (at most one row per
pair) then after `set_base_image(c, b, p)` the table contains exactly
one row for the pair `(c, b)` and `get_base_image(c, b)` returns `p`. -/
theorem C7_base_image_roundtrip :
    ∀ (bs : List BaseRow) (c b p : Str), pyStrip c = c →
      bs.countP (pairMatch c b) ≤ 1 →
      (set_base_image bs c b p).countP (pairMatch c b) = 1 ∧
      get_base_image (set_base_image bs c b p) c b = some p := by
  intro bs c b p hstrip huniq
  have hpair : ∀ r : BaseRow,
      pairMatch c b (if pairMatch c b r then { r with image := p } else r) =
      pairMatch c b r := by
    intro r
    by_cases h : pairMatch c b r
    · simp only [h, if_pos]
      simp only [pairMatch, decide_eq_true_eq] at h ⊢
      exact h
    · simp only [h]
      simp only [Bool.false_eq_true, if_neg]
      exact (Bool.not_eq_true _).mp h ▸ rfl
  have hmapcount :
      (bs.map (fun r => if pairMatch c b r then { r with image := p } else r)).countP
        (pairMatch c b) = bs.countP (pairMatch c b) := by
    rw [List.countP_map]
    exact List.countP_congr (fun r _ => by simp [Function.comp, hpair r])
  unfold set_base_image get_base_image
  rw [hstrip]
  by_cases hz : bs.countP (pairMatch c b) = 0
  · rw [if_pos hz]
    constructor
    · rw [List.countP_append, hmapcount, hz]
      simp [pairMatch]
    · have hnone : (bs.map (fun r =>
          if pairMatch c b r then { r with image := p } else r)).find?
            (pairMatch c b) = none := by
        rw [List.find?_eq_none]
        intro x hx
        obtain ⟨r, hr, rfl⟩ := List.mem_map.mp hx
        have := List.countP_eq_zero.mp hz r hr
        simp [hpair r, this]
      rw [List.find?_append, hnone]
      simp [pairMatch]
  · have hone : bs.countP (pairMatch c b) = 1 := by omega
    rw [if_neg (by omega)]
    constructor
    · rw [hmapcount, hone]
    · have hex : ∃ r ∈ bs, pairMatch c b r := by
        have := List.countP_pos_iff.mp (by omega : 0 < bs.countP (pairMatch c b))
        simpa using this
      have hsome : (bs.find? (pairMatch c b)).isSome := List.find?_isSome.mpr hex
      obtain ⟨r, hr⟩ := Option.isSome_iff_exists.mp hsome
      have hPr : pairMatch c b r := List.find?_some hr
      have : (bs.map (fun r => if pairMatch c b r then { r with image := p } else r)).find?
          (pairMatch c b) = some (if pairMatch c b r then { r with image := p } else r) := by
        rw [List.find?_map]
        have hcomp : ((pairMatch c b) ∘ fun r =>
            if pairMatch c b r then { r with image := p } else r) = pairMatch c b := by
          funext r
          simp [Function.comp, hpair r]
        rw [hcomp, hr]
        rfl
      rw [this]
      simp [hPr]

theorem C7_base_image_roundtrip_witness :
    (set_base_image [] "x".data "1".data "img.png".data).countP
        (pairMatch "x".data "1".data) = 1 ∧
    get_base_image (set_base_image [] "x".data "1".data "img.png".data)
        "x".data "1".data = some "img.png".data :=
  C7_base_image_roundtrip [] "x".data "1".data "img.png".data (by decide) (by decide)

/-! ### C8: frame of `mark_as_sold` -/

/-- Rows `p` and `q` agree on every column that the `UPDATE` of `mark_as_sold` does not
name: `product_code`, `name`, `category`, `base_number`, `weight`,
`purity`, `notes`, `created_at` (and the row id). -/
def frameEq (p q : Product) : Prop :=
  p.id = q.id ∧ p.product_code = q.product_code ∧ p.name = q.name ∧
  p.category = q.category ∧ p.base_number = q.base_number ∧
  p.weight = q.weight ∧ p.purity = q.purity ∧ p.notes = q.notes ∧
  p.created_at = q.created_at

/-- C8: `mark_as_sold` only touches `sold_invoice`, `image`, `thumb`,
`quantity`, `sold_at` on rows with the given id: every row keeps its
identity columns (`frameEq`), and rows whose id differs are completely
unchanged. -/
theorem C8_mark_as_sold_frame :
    ∀ (db : DB) (pid : Int) (invoice : Str) (si st : Option Str) (ts : Str),
      (mark_as_sold_core db pid invoice si st ts).nextId = db.nextId ∧
      (mark_as_sold_core db pid invoice si st ts).products.length = db.products.length ∧
      ∀ i (h : i < db.products.length)
        (h' : i < (mark_as_sold_core db pid invoice si st ts).products.length),
        frameEq ((mark_as_sold_core db pid invoice si st ts).products[i]) db.products[i] ∧
        (db.products[i].id ≠ pid →
          (mark_as_sold_core db pid invoice si st ts).products[i] = db.products[i]) := by
  intro db pid invoice si st ts
  unfold mark_as_sold_core
  cases hf : db.products.find? (fun p => p.id = pid) with
  | none =>
    refine ⟨rfl, rfl, ?_⟩
    intro i h h'
    exact ⟨⟨rfl, rfl, rfl, rfl, rfl, rfl, rfl, rfl, rfl⟩, fun _ => rfl⟩
  | some r =>
    refine ⟨rfl, by simp, ?_⟩
    intro i h h'
    simp only [List.getElem_map]
    by_cases hid : db.products[i].id = pid
    · rw [if_pos (by simpa using hid)]
      exact ⟨⟨rfl, rfl, rfl, rfl, rfl, rfl, rfl, rfl, rfl⟩, fun hne => absurd hid hne⟩
    · rw [if_neg (by simpa using hid)]
      exact ⟨⟨rfl, rfl, rfl, rfl, rfl, rfl, rfl, rfl, rfl⟩, fun _ => rfl⟩

theorem C8_mark_as_sold_frame_witness :
    (mark_as_sold_core { products := [recentSoldProduct], nextId := 2 } 1
        "INV-2".data none none "1404/07/21 09:00".data).nextId = 2 ∧
    (mark_as_sold_core { products := [recentSoldProduct], nextId := 2 } 1
        "INV-2".data none none "1404/07/21 09:00".data).products.length = 1 ∧
    frameEq ((mark_as_sold_core { products := [recentSoldProduct], nextId := 2 } 1
        "INV-2".data none none "1404/07/21 09:00".data).products[0])
      ([recentSoldProduct][0]) := by
  have h := C8_mark_as_sold_frame { products := [recentSoldProduct], nextId := 2 } 1
    "INV-2".data none none "1404/07/21 09:00".data
  exact ⟨h.1, h.2.1, (h.2.2 0 (by decide) (by rw [h.2.1]; decide)).1⟩

/-! ### C10: error paths -/

/-- C10: when the product id fails integer parsing, `delete_product` and
`mark_as_sold` return before touching the database; `mark_as_sold`
additionally leaves the database unchanged when no row has the parsed
id. -/
theorem C10_error_paths_leave_db_unchanged :
    (∀ (db : DB) (pid : Str) (invoice : Str) (si st : Option Str) (ts : Str),
      pyInt? pid = none →
        delete_product db pid = db ∧ mark_as_sold db pid invoice si st ts = db) ∧
    (∀ (db : DB) (pid : Str) (n : Int) (invoice : Str) (si st : Option Str) (ts : Str),
      pyInt? pid = some n → (∀ r ∈ db.products, r.id ≠ n) →
        mark_as_sold db pid invoice si st ts = db) := by
  constructor
  · intro db pid invoice si st ts hp
    unfold delete_product mark_as_sold
    rw [hp]
    exact ⟨rfl, rfl⟩
  · intro db pid n invoice si st ts hp hmiss
    unfold mark_as_sold
    rw [hp]
    show mark_as_sold_core db n invoice si st ts = db
    have hfind : db.products.find? (fun p => p.id = n) = none := by
      rw [List.find?_eq_none]
      intro r hr
      simpa using hmiss r hr
    unfold mark_as_sold_core
    rw [hfind]

theorem C10_error_paths_witness :
    (delete_product { products := [recentSoldProduct], nextId := 2 } "abc".data
        = { products := [recentSoldProduct], nextId := 2 } ∧
      mark_as_sold { products := [recentSoldProduct], nextId := 2 } "abc".data
        "I".data none none "ts".data = { products := [recentSoldProduct], nextId := 2 }) ∧
    mark_as_sold { products := [recentSoldProduct], nextId := 2 } "5".data
        "I".data none none "ts".data = { products := [recentSoldProduct], nextId := 2 } := by
  refine ⟨C10_error_paths_leave_db_unchanged.1 _ _ _ _ _ _ (by decide), ?_⟩
  exact C10_error_paths_leave_db_unchanged.2 _ _ 5 _ _ _ _ (by decide) (by decide)

/-! ### Application-level operations and reachable states (C3, C4)

The operations below are the code paths that mutate the `products`
table: saving new products (batch or single), editing an existing
product, the sell flow, `mark_as_sold`, the two restore actions, manual
deletion and the sold-product purge.  Environment-dependent values
(user input, timestamps, `copy_to_sold` results, the sequence number
returned by `get_next_seq_for_category`) are operation parameters. -/

/-- The `while self.db.get_product_by_code(code) is not None: seq += 1`
loop of `save_batch_products` / `_save_single_product`, with explicit
fuel (the source loop is unbounded, but `|products| + 1` candidate codes
always suffice since each used code can match at most one candidate). -/
def findFreeCode (db : DB) (pref : Str) : Nat → Nat → Str
  | seq, 0 => pref ++ natRepr seq
  | seq, fuel + 1 =>
    let code := pref ++ natRepr seq
    if (get_product_by_code db code).isSome then findFreeCode db pref (seq + 1) fuel
    else code

/-- One saved item of `save_batch_products` (also the add branch of
`_save_single_product`): code from the uniqueness loop, `quantity: 1`,
no sold fields, Jalali `created_at`. -/
def save_new_product (db : DB) (pref : Str) (seq : Nat)
    (name category base_number : Str) (weight : Rat)
    (purity image thumb notes : Option Str) (ts : Str) : DB :=
  let code := findFreeCode db pref seq (db.products.length + 1)
  add_product db
    { product_code := some code, name := name, category := category,
      base_number := base_number, weight := weight, quantity := 1,
      purity := purity, image := image, thumb := thumb, notes := notes,
      created_at := some ts, sold_invoice := none, sold_at := none }

/-- The editing branch of `_save_single_product`: the product dict has
`quantity: 1` and no sold keys; the code is the edited row's existing
code when truthy, else a fresh one; then `update_product`. -/
def edit_existing_product (db : DB) (pid : Int) (pref : Str) (seq : Nat)
    (name category base_number : Str) (weight : Rat)
    (purity image thumb notes : Option Str) (ts : Str) : DB :=
  let fresh := findFreeCode db pref seq (db.products.length + 1)
  let code := match db.products.find? (fun p => p.id = pid) with
    | some r => match r.product_code with
      | some c => if c = [] then fresh else c
      | none => fresh
    | none => fresh
  update_product db pid
    { product_code := some code, name := name, category := category,
      base_number := base_number, weight := weight, quantity := 1,
      purity := purity, image := image, thumb := thumb, notes := notes,
      created_at := some ts, sold_invoice := none, sold_at := none }

/-- Closure `do_sell_with_invoice` in `sell_current_product`: empty invoice is
rejected; a product with quantity > 1 is decremented (via
`update_product` on `{**prod, 'quantity': q-1}`) and a separate sold row
with quantity 0 is inserted; otherwise the row itself is marked sold via
`mark_as_sold`.  `suffix` is the `%H%M%S` time in the generated sold
code, `soldImg`/`soldThumb` the `copy_to_sold` results. -/
def sell_product (db : DB) (pid : Int) (invoice suffix : Str)
    (soldImg soldThumb : Option Str) (ts : Str) : DB :=
  if invoice = [] then db
  else
    match db.products.find? (fun p => p.id = pid) with
    | none => db
    | some prod =>
      if 1 < prod.quantity then
        let db1 := update_product db pid
          { prod.toProductData with
            quantity := prod.quantity - 1
            created_at := truthyOr prod.created_at (some ts) }
        let soldCode := (match prod.product_code with
          | some c => c
          | none => "None".data) ++ "-S".data ++ suffix
        add_product db1
          { product_code := some soldCode,
            name := prod.name ++ " (sold)".data,
            category := prod.category, base_number := prod.base_number,
            weight := prod.weight, quantity := 0, purity := prod.purity,
            image := soldImg, thumb := soldThumb,
            notes := some ("invoice: ".data ++ invoice ++ " | ".data ++
              (match prod.notes with | some s => s | none => [])),
            created_at := some ts, sold_invoice := some invoice,
            sold_at := some ts }
      else
        mark_as_sold_core db pid invoice (truthyOr soldImg prod.image)
          (truthyOr soldThumb prod.thumb) ts

/-- The database-mutating operations of the application. -/
inductive Op where
  | saveNew (pref : Str) (seq : Nat) (name category base_number : Str)
      (weight : Rat) (purity image thumb notes : Option Str) (ts : Str)
  | editExisting (pid : Int) (pref : Str) (seq : Nat)
      (name category base_number : Str) (weight : Rat)
      (purity image thumb notes : Option Str) (ts : Str)
  | sell (pid : Int) (invoice suffix : Str) (soldImg soldThumb : Option Str) (ts : Str)
  | markSold (pid : Str) (invoice : Str) (img thumb : Option Str) (ts : Str)
  | restoreOne (pid : Int)
  | restoreByInvoice (invoice : Str)
  | removeProduct (pid : Str)
  | purgeOldSold (cutoff : Str)

def step (db : DB) : Op → DB
  | .saveNew pref seq name cat bn w pu im th no ts =>
      save_new_product db pref seq name cat bn w pu im th no ts
  | .editExisting pid pref seq name cat bn w pu im th no ts =>
      edit_existing_product db pid pref seq name cat bn w pu im th no ts
  | .sell pid invoice suffix si st ts => sell_product db pid invoice suffix si st ts
  | .markSold pid invoice im th ts => mark_as_sold db pid invoice im th ts
  | .restoreOne pid => restore_sold_product db pid
  | .restoreByInvoice invoice => restore_invoice db invoice
  | .removeProduct pid => delete_product db pid
  | .purgeOldSold cutoff => delete_old_sold_products cutoff db

/-- The database reached by running a sequence of operations from the
freshly created empty table (AUTOINCREMENT ids start at 1). -/
def applyOps (ops : List Op) : DB :=
  ops.foldl step { products := [], nextId := 1 }

/-- Two rows respect the schema constraints pairwise: distinct primary
keys, and no shared non-NULL `product_code`. -/
def rowsDistinct (p q : Product) : Prop :=
  p.id ≠ q.id ∧ ∀ c, p.product_code = some c → q.product_code ≠ some c

/-- The reachability invariant: pairwise-distinct ids and codes, ids
below the AUTOINCREMENT counter, and sold rows have quantity 0. -/
def Inv (db : DB) : Prop :=
  db.products.Pairwise rowsDistinct ∧
  (∀ p ∈ db.products, p.id < db.nextId) ∧
  (∀ p ∈ db.products, soldNonEmpty p.toProductData → p.quantity = 0)

theorem inv_filter (db : DB) (g : Product → Bool) (h : Inv db) :
    Inv { db with products := db.products.filter g } := by
  obtain ⟨h1, h2, h3⟩ := h
  exact ⟨h1.filter g,
    fun p hp => h2 p (List.mem_of_mem_filter hp),
    fun p hp => h3 p (List.mem_of_mem_filter hp)⟩

/-- A row-map that keeps id and `product_code`, and keeps sold rows at
quantity 0, preserves the invariant. -/
theorem inv_map (db : DB) (f : Product → Product)
    (hid : ∀ q, (f q).id = q.id)
    (hcode : ∀ q, (f q).product_code = q.product_code)
    (hsold : ∀ q ∈ db.products, (soldNonEmpty q.toProductData → q.quantity = 0) →
      soldNonEmpty (f q).toProductData → (f q).quantity = 0)
    (h : Inv db) : Inv { db with products := db.products.map f } := by
  obtain ⟨h1, h2, h3⟩ := h
  refine ⟨?_, ?_, ?_⟩
  · rw [List.pairwise_map]
    exact h1.imp (fun {a b} hab =>
      ⟨by rw [hid, hid]; exact hab.1,
       fun c hc => by rw [hcode] at hc ⊢; exact hab.2 c hc⟩)
  · intro p hp
    obtain ⟨q, hq, rfl⟩ := List.mem_map.mp hp
    rw [hid]
    exact h2 q hq
  · intro p hp
    obtain ⟨q, hq, rfl⟩ := List.mem_map.mp hp
    exact hsold q hq (h3 q hq)

theorem inv_add_product (db : DB) (p : ProductData)
    (hq : soldNonEmpty p → p.quantity = 0)
    (h : Inv db) : Inv (add_product db p) := by
  obtain ⟨h1, h2, h3⟩ := h
  unfold add_product
  split_ifs with hg
  · exact ⟨h1, h2, h3⟩
  · push_neg at hg
    refine ⟨?_, ?_, ?_⟩
    · rw [List.pairwise_append]
      refine ⟨h1, List.pairwise_singleton _ _, ?_⟩
      intro a ha x hx
      rw [List.mem_singleton] at hx
      subst hx
      refine ⟨fun hcontra => ?_, fun c hc => ?_⟩
      · have hcontra' : a.id = db.nextId := hcontra
        have := h2 a ha
        omega
      · intro hpc
        have hpc' : p.product_code = some c := hpc
        have hany := hg (by rw [hpc']; exact fun hcon => Option.noConfusion hcon)
        apply hany
        rw [List.any_eq_true]
        exact ⟨a, ha, by rw [decide_eq_true_eq]; exact hc.trans hpc'.symm⟩
    · intro q hq'
      rw [List.mem_append] at hq'
      show q.id < db.nextId + 1
      rcases hq' with hq' | hq'
      · have := h2 q hq'
        omega
      · rw [List.mem_singleton] at hq'
        subst hq'
        show db.nextId < db.nextId + 1
        omega
    · intro q hq'
      rw [List.mem_append] at hq'
      rcases hq' with hq' | hq'
      · exact h3 q hq'
      · rw [List.mem_singleton] at hq'
        subst hq'
        exact hq

theorem inv_update_product (db : DB) (pid : Int) (p : ProductData)
    (hq : soldNonEmpty p → p.quantity = 0)
    (h : Inv db) : Inv (update_product db pid p) := by
  obtain ⟨h1, h2, h3⟩ := h
  unfold update_product
  split_ifs with hg
  · exact ⟨h1, h2, h3⟩
  · push_neg at hg
    refine ⟨?_, ?_, ?_⟩
    · rw [List.pairwise_map]
      refine h1.imp_of_mem (fun {a b} ha hb hab => ?_)
      have hida : (if a.id = pid then (⟨p, a.id⟩ : Product) else a).id = a.id := by
        split_ifs <;> rfl
      have hidb : (if b.id = pid then (⟨p, b.id⟩ : Product) else b).id = b.id := by
        split_ifs <;> rfl
      refine ⟨by rw [hida, hidb]; exact hab.1, ?_⟩
      intro c hc hc'
      by_cases hba : a.id = pid <;> by_cases hbb : b.id = pid
      · exact hab.1 (hba.trans hbb.symm)
      · rw [if_pos hba] at hc
        rw [if_neg hbb] at hc'
        have hcode : p.product_code = some c := hc
        have hany := hg (by rw [hcode]; exact fun hcon => Option.noConfusion hcon)
        apply hany
        rw [List.any_eq_true]
        exact ⟨b, hb, by
          rw [decide_eq_true_eq]
          exact ⟨hbb, by rw [hc', hcode]⟩⟩
      · rw [if_neg hba] at hc
        rw [if_pos hbb] at hc'
        have hcode : p.product_code = some c := hc'
        have hany := hg (by rw [hcode]; exact fun hcon => Option.noConfusion hcon)
        apply hany
        rw [List.any_eq_true]
        exact ⟨a, ha, by
          rw [decide_eq_true_eq]
          exact ⟨hba, by rw [hc, hcode]⟩⟩
      · rw [if_neg hba] at hc
        rw [if_neg hbb] at hc'
        exact hab.2 c hc hc'
    · intro q hq'
      obtain ⟨r, hr, rfl⟩ := List.mem_map.mp hq'
      have : (if r.id = pid then (⟨p, r.id⟩ : Product) else r).id = r.id := by
        split_ifs <;> rfl
      rw [this]
      exact h2 r hr
    · intro q hq'
      obtain ⟨r, hr, rfl⟩ := List.mem_map.mp hq'
      by_cases hrp : r.id = pid
      · rw [if_pos hrp]
        exact hq
      · rw [if_neg hrp]
        exact h3 r hr

theorem inv_mark_as_sold_core (db : DB) (pid : Int) (invoice : Str)
    (si st : Option Str) (ts : Str) (h : Inv db) :
    Inv (mark_as_sold_core db pid invoice si st ts) := by
  unfold mark_as_sold_core
  cases hf : db.products.find? (fun p => p.id = pid) with
  | none => exact h
  | some r =>
    refine inv_map db _ ?_ ?_ ?_ h
    · intro q; split_ifs <;> rfl
    · intro q; split_ifs <;> rfl
    · intro q _ hsq hcon
      by_cases hb : q.id = pid
      · rw [if_pos hb]
      · rw [if_neg hb] at hcon ⊢
        exact hsq hcon

theorem inv_restore_sold_product (db : DB) (pid : Int) (h : Inv db) :
    Inv (restore_sold_product db pid) := by
  unfold restore_sold_product
  cases db.products.find? (fun p => p.id = pid) with
  | none => exact h
  | some r =>
    refine inv_map db _ ?_ ?_ ?_ h
    · intro q; split_ifs <;> rfl
    · intro q; split_ifs <;> rfl
    · intro q _ hsq hcon
      by_cases hb : q.id = pid
      · rw [if_pos hb] at hcon
        exact absurd hcon (by simp [soldNonEmpty])
      · rw [if_neg hb] at hcon ⊢
        exact hsq hcon

theorem inv_restore_invoice (db : DB) (invoice : Str) (h : Inv db) :
    Inv (restore_invoice db invoice) := by
  unfold restore_invoice
  refine inv_map db _ ?_ ?_ ?_ h
  · intro q; split_ifs <;> rfl
  · intro q; split_ifs <;> rfl
  · intro q _ hsq hcon
    by_cases hb : q.sold_invoice = some invoice
    · rw [if_pos hb] at hcon
      exact absurd hcon (by simp [soldNonEmpty])
    · rw [if_neg hb] at hcon ⊢
      exact hsq hcon

theorem inv_sell_product (db : DB) (pid : Int) (invoice suffix : Str)
    (si st : Option Str) (ts : Str) (h : Inv db) :
    Inv (sell_product db pid invoice suffix si st ts) := by
  unfold sell_product
  split_ifs with hinv
  · exact h
  cases hf : db.products.find? (fun p => p.id = pid) with
  | none => exact h
  | some prod =>
    have hmem : prod ∈ db.products := List.mem_of_find?_eq_some hf
    dsimp only
    by_cases hq1 : 1 < prod.quantity
    · rw [if_pos hq1]
      have hsoldprod : soldNonEmpty prod.toProductData = false := by
        by_cases hs : soldNonEmpty prod.toProductData
        · have := h.2.2 prod hmem hs
          omega
        · exact (Bool.not_eq_true _).mp hs
      refine inv_add_product _ _ (fun _ => rfl) ?_
      refine inv_update_product db pid _ ?_ h
      intro hcon
      rw [show soldNonEmpty { prod.toProductData with
            quantity := prod.quantity - 1
            created_at := truthyOr prod.created_at (some ts) } =
          soldNonEmpty prod.toProductData from rfl, hsoldprod] at hcon
      exact absurd hcon (by simp)
    · rw [if_neg hq1]
      exact inv_mark_as_sold_core db pid invoice _ _ ts h

theorem inv_step (db : DB) (op : Op) (h : Inv db) : Inv (step db op) := by
  cases op with
  | saveNew pref seq name cat bn w pu im th no ts =>
    exact inv_add_product db _ (fun hcon => absurd hcon (by simp [soldNonEmpty])) h
  | editExisting pid pref seq name cat bn w pu im th no ts =>
    exact inv_update_product db pid _ (fun hcon => absurd hcon (by simp [soldNonEmpty])) h
  | sell pid invoice suffix si st ts => exact inv_sell_product db pid invoice suffix si st ts h
  | markSold pid invoice im th ts =>
    show Inv (mark_as_sold db pid invoice im th ts)
    unfold mark_as_sold
    cases pyInt? pid with
    | none => exact h
    | some n => exact inv_mark_as_sold_core db n invoice im th ts h
  | restoreOne pid => exact inv_restore_sold_product db pid h
  | restoreByInvoice invoice => exact inv_restore_invoice db invoice h
  | removeProduct pid =>
    show Inv (delete_product db pid)
    unfold delete_product
    cases pyInt? pid with
    | none => exact h
    | some n => exact inv_filter db _ h
  | purgeOldSold cutoff => exact inv_filter db _ h

theorem inv_foldl (ops : List Op) : ∀ db : DB, Inv db → Inv (ops.foldl step db) := by
  induction ops with
  | nil => exact fun db h => h
  | cons op rest ih => exact fun db h => ih (step db op) (inv_step db op h)

theorem inv_applyOps (ops : List Op) : Inv (applyOps ops) :=
  inv_foldl ops { products := [], nextId := 1 }
    ⟨List.Pairwise.nil, fun p hp => absurd hp (List.not_mem_nil p),
     fun p hp => absurd hp (List.not_mem_nil p)⟩

/-- A demonstration run: save one product (code `G1`), then mark it
sold. -/
def demoOps : List Op :=
  [Op.saveNew "G".data 1 "ring".data "ring".data "1".data 2 none none none none
     "1404/07/20 10:30".data,
   Op.markSold "1".data "INV-1".data none none "1404/07/20 11:00".data]

/-- The row `demoOps` produces. -/
def demoSoldRow : Product :=
  { product_code := some "G1".data
    name := "ring".data
    category := "ring".data
    base_number := "1".data
    weight := 2
    quantity := 0
    purity := none
    image := none
    thumb := none
    notes := none
    created_at := some "1404/07/20 10:30".data
    sold_invoice := some "INV-1".data
    sold_at := some "1404/07/20 11:00".data
    id := 1 }

/-- C3: in every database state reachable by the application's
operations, a row with a non-empty `sold_invoice` has quantity 0; and
`mark_as_sold` sets quantity 0 and `sold_at` to the given timestamp on
the row it marks sold. -/
theorem C3_sold_nonempty_implies_zero_quantity :
    (∀ ops : List Op, ∀ p ∈ (applyOps ops).products,
      soldNonEmpty p.toProductData → p.quantity = 0) ∧
    (∀ (db : DB) (pid : Int) (invoice : Str) (si st : Option Str) (ts : Str),
      (∃ r ∈ db.products, r.id = pid) →
      ∀ q ∈ (mark_as_sold_core db pid invoice si st ts).products,
        q.id = pid → q.quantity = 0 ∧ q.sold_at = some ts) := by
  constructor
  · intro ops p hp hs
    exact (inv_applyOps ops).2.2 p hp hs
  · rintro db pid invoice si st ts ⟨r, hr, hrid⟩ q hq hqid
    unfold mark_as_sold_core at hq
    cases hfind : db.products.find? (fun p => p.id = pid) with
    | none =>
      exact absurd (by rw [decide_eq_true_eq]; exact hrid)
        (List.find?_eq_none.mp hfind r hr)
    | some r' =>
      rw [hfind] at hq
      dsimp only at hq
      obtain ⟨q0, hq0, rfl⟩ := List.mem_map.mp hq
      by_cases hb : q0.id = pid
      · rw [if_pos hb]
        exact ⟨rfl, rfl⟩
      · rw [if_neg hb] at hqid
        exact absurd hqid hb

theorem C3_sold_nonempty_witness :
    demoSoldRow.quantity = 0 ∧
    ∀ q ∈ (mark_as_sold_core { products := [recentSoldProduct], nextId := 2 } 1
        "INV-2".data none none "1404/07/21 09:00".data).products,
      q.id = 1 → q.quantity = 0 ∧ q.sold_at = some "1404/07/21 09:00".data :=
  ⟨C3_sold_nonempty_implies_zero_quantity.1 demoOps demoSoldRow (by decide) (by decide),
   C3_sold_nonempty_implies_zero_quantity.2 { products := [recentSoldProduct], nextId := 2 }
     1 "INV-2".data none none "1404/07/21 09:00".data
     ⟨recentSoldProduct, by decide, by decide⟩⟩

/-- C4: in every database state reachable by the application's
operations, no two rows share the same non-empty product code (the
batch-save code loop only ever inserts codes that are fresh, and the
`UNIQUE` column constraint rejects any duplicate insert or update). -/
theorem C4_product_codes_unique :
    ∀ ops : List Op, (applyOps ops).products.Pairwise
      (fun p q => ∀ c : Str, c ≠ [] → p.product_code = some c → q.product_code ≠ some c) := by
  intro ops
  exact ((inv_applyOps ops).1).imp (fun hab => fun c _ hc => hab.2 c hc)

theorem C4_product_codes_unique_witness :
    (applyOps demoOps).products.Pairwise
      (fun p q => ∀ c : Str, c ≠ [] → p.product_code = some c → q.product_code ≠ some c) :=
  C4_product_codes_unique demoOps

/-! ### C6: backup-ZIP restore path handling (`_on_restore_selected`)

Archive member names are POSIX path strings; `os.path.normpath` is
modelled on the segment list (split on `'/'`) as a fold that skips empty
and `.` segments, pops a trailing segment on `..`, and counts the
`..`s that would climb above the starting directory (`ups`).  A path
escapes the directory it is resolved against iff `ups > 0` (once the
segment stack is empty a `..` only ever increments `ups`, which never
decreases again). -/

structure Resolved where
  ups : Nat
  segs : List Str
deriving DecidableEq

def resolveStep (acc : Resolved) (s : Str) : Resolved :=
  if s = [] ∨ s = ".".data then acc
  else if s = "..".data then
    match acc.segs with
    | [] => { acc with ups := acc.ups + 1 }
    | _ :: _ => { acc with segs := acc.segs.dropLast }
  else { acc with segs := acc.segs ++ [s] }

def resolvePath (segs : List Str) : Resolved := segs.foldl resolveStep ⟨0, []⟩

/-- `os.path.normpath(member).startswith('..')`: the normalized string
starts with `".."` iff some leading-`..` survives, or the first
remaining segment itself begins with two dots. -/
def normStartsDotDot (r : Resolved) : Bool :=
  0 < r.ups || isPre "..".data (r.segs.headD [])

/-- `os.path.relpath(member, base)` for a one-segment `base`, applied to
the already-normalized member (`relpath` normalizes internally); used
with `base = "images"` / `"thumbs"` where the guard has ensured
`ups = 0`. -/
def relFromBase (base : Str) (r : Resolved) : List Str :=
  match r.segs with
  | [] => "..".data :: r.segs
  | b :: rest => if b = base then rest else "..".data :: r.segs

/-- The file-write destination of `_on_restore_selected` for one archive
member, as a path relative to the user data directory (`images/...`
destinations live under `images_dir = user_data/images`, the database
member is extracted into the user data directory and moved onto
`db_path`); `none` when the member is skipped. -/
def restoreMemberDest (dbName member : Str) : Option (List Str) :=
  if normStartsDotDot (resolvePath (splitOnChar '/' member)) then none
  else if member = dbName then some (splitOnChar '/' member)
  else if isPre "images/".data member then
    some ("images".data :: relFromBase "images".data (resolvePath (splitOnChar '/' member)))
  else if isPre "thumbs/".data member then
    some ("thumbs".data :: relFromBase "thumbs".data (resolvePath (splitOnChar '/' member)))
  else none

/-- No segment of a resolved path is empty, `.` or `..`. -/
def cleanSegs (l : List Str) : Prop :=
  ∀ s ∈ l, s ≠ [] ∧ s ≠ ".".data ∧ s ≠ "..".data

theorem resolveStep_push (acc : Resolved) (s : Str)
    (h : s ≠ [] ∧ s ≠ ".".data ∧ s ≠ "..".data) :
    resolveStep acc s = ⟨acc.ups, acc.segs ++ [s]⟩ := by
  unfold resolveStep
  rw [if_neg (by tauto), if_neg h.2.2]

theorem foldl_resolve_clean (l : List Str) : ∀ acc : Resolved, cleanSegs l →
    l.foldl resolveStep acc = ⟨acc.ups, acc.segs ++ l⟩ := by
  induction l with
  | nil => intro acc _; simp
  | cons s rest ih =>
    intro acc hc
    rw [List.foldl_cons, resolveStep_push acc s (hc s (List.mem_cons_self s rest)),
      ih _ (fun t ht => hc t (List.mem_cons_of_mem s ht))]
    simp

theorem resolve_segs_clean (segs : List Str) : cleanSegs (resolvePath segs).segs := by
  suffices h : ∀ acc : Resolved, cleanSegs acc.segs →
      cleanSegs (segs.foldl resolveStep acc).segs from
    h ⟨0, []⟩ (fun s hs => absurd hs (List.not_mem_nil s))
  induction segs with
  | nil => exact fun acc h => h
  | cons s rest ih =>
    intro acc hacc
    rw [List.foldl_cons]
    refine ih (resolveStep acc s) ?_
    unfold resolveStep
    split_ifs with h1 h2
    · exact hacc
    · cases hsegs : acc.segs with
      | nil => simpa [hsegs] using hacc
      | cons a as =>
        simp only [hsegs]
        intro t ht
        exact hacc t (hsegs ▸ List.mem_of_mem_dropLast ht)
    · intro t ht
      rcases List.mem_append.mp ht with ht | ht
      · exact hacc t ht
      · rw [List.mem_singleton] at ht
        subst ht
        exact ⟨fun hcon => h1 (Or.inl hcon), fun hcon => h1 (Or.inr hcon), h2⟩

theorem resolveStep_pop_single (base : Str) :
    resolveStep ⟨0, [] ++ [base]⟩ "..".data = ⟨0, []⟩ := by
  unfold resolveStep
  rw [if_neg (by decide), if_pos rfl]
  simp

theorem resolve_base_rel_ups (base : Str) (r : Resolved)
    (hbase : base ≠ [] ∧ base ≠ ".".data ∧ base ≠ "..".data)
    (hclean : cleanSegs r.segs) :
    (resolvePath (base :: relFromBase base r)).ups = 0 := by
  unfold resolvePath relFromBase
  cases hsegs : r.segs with
  | nil =>
    dsimp only
    rw [List.foldl_cons, resolveStep_push _ _ hbase, List.foldl_cons,
      resolveStep_pop_single base]
    rfl
  | cons b rest =>
    dsimp only
    by_cases hb : b = base
    · rw [if_pos hb, List.foldl_cons, resolveStep_push _ _ hbase]
      have hcrest : cleanSegs rest := fun t ht =>
        hclean t (hsegs ▸ List.mem_cons_of_mem b ht)
      rw [foldl_resolve_clean rest _ hcrest]
    · rw [if_neg hb, List.foldl_cons, resolveStep_push _ _ hbase, List.foldl_cons,
        resolveStep_pop_single base,
        foldl_resolve_clean (b :: rest) _ (hsegs ▸ hclean)]

/-- C6: `_on_restore_selected` skips every member whose normalized path
starts with `..`; any member it does write goes to the database file
name, or under `images/` or `thumbs/`, and its destination path resolves
without escaping the user data directory (`ups = 0`). -/
theorem C6_restore_zip_path_safety :
    ∀ dbName member : Str,
      (normStartsDotDot (resolvePath (splitOnChar '/' member)) = true →
        restoreMemberDest dbName member = none) ∧
      (∀ dest, restoreMemberDest dbName member = some dest →
        (resolvePath dest).ups = 0 ∧
        (member = dbName ∨ isPre "images/".data member = true ∨
          isPre "thumbs/".data member = true)) := by
  intro dbName member
  constructor
  · intro h
    unfold restoreMemberDest
    rw [if_pos h]
  · intro dest hdest
    unfold restoreMemberDest at hdest
    by_cases hg : normStartsDotDot (resolvePath (splitOnChar '/' member)) = true
    · rw [if_pos hg] at hdest
      exact Option.noConfusion hdest
    · rw [if_neg hg] at hdest
      have hups : (resolvePath (splitOnChar '/' member)).ups = 0 := by
        unfold normStartsDotDot at hg
        rcases Nat.eq_zero_or_pos (resolvePath (splitOnChar '/' member)).ups with h0 | h0
        · exact h0
        · exact absurd (by rw [Bool.or_eq_true]; exact Or.inl (by simpa using h0)) hg
      have hclean := resolve_segs_clean (splitOnChar '/' member)
      by_cases hdb : member = dbName
      · rw [if_pos hdb] at hdest
        obtain rfl := Option.some.inj hdest
        exact ⟨hups, Or.inl hdb⟩
      · rw [if_neg hdb] at hdest
        by_cases him : isPre "images/".data member = true
        · rw [if_pos him] at hdest
          obtain rfl := Option.some.inj hdest
          exact ⟨resolve_base_rel_ups "images".data _ (by refine ⟨?_, ?_, ?_⟩ <;> decide)
            hclean, Or.inr (Or.inl him)⟩
        · rw [if_neg him] at hdest
          by_cases hth : isPre "thumbs/".data member = true
          · rw [if_pos hth] at hdest
            obtain rfl := Option.some.inj hdest
            exact ⟨resolve_base_rel_ups "thumbs".data _ (by refine ⟨?_, ?_, ?_⟩ <;> decide)
              hclean, Or.inr (Or.inr hth)⟩
          · rw [if_neg hth] at hdest
            exact Option.noConfusion hdest

theorem C6_restore_zip_path_safety_witness :
    restoreMemberDest "goldshop.db".data "../evil".data = none ∧
    ((resolvePath ["images".data, "x.png".data]).ups = 0 ∧
      ("images/x.png".data = "goldshop.db".data ∨
        isPre "images/".data "images/x.png".data = true ∨
        isPre "thumbs/".data "images/x.png".data = true)) :=
  ⟨(C6_restore_zip_path_safety "goldshop.db".data "../evil".data).1 (by decide),
   (C6_restore_zip_path_safety "goldshop.db".data "images/x.png".data).2
     ["images".data, "x.png".data] (by decide)⟩

end GoldShop
